import Mathlib

/-!
Verification of the parcel incremental build graph (AssetGraph) against its
natural-language specification.

The build-graph layer (node constructors, index bookkeeping, the resolve*
operations, and the invalidation protocol) is translated directly from
src/packages/core/core/src/AssetGraph.js.  The generic Graph base class, the
Dependency class, and the hash/glob utilities are not part of the excerpt and
are modelled from the specification (each such definition carries a doc
comment starting with "Modelled from the spec:").
-/

namespace Parcel

/-- A dependency record (an import/require edge source).  Modelled from the
spec: the Dependency class is not in the excerpt; per the spec its identity is
a process-unique id assigned at creation, and the graph layer reads only the
fields below. -/
structure Dependency where
  id : String
  moduleSpecifier : String
  env : String
  isEntry : Bool
deriving DecidableEq

/-- A file participating in the build (AssetGraph.js uses plain records with a
filePath field). -/
structure File where
  filePath : String
deriving DecidableEq

/-- A request to transform one file under one environment.  The environment is
modelled by its serialization (the source only ever consumes it through
JSON.stringify and structural passing). -/
structure TransformerRequest where
  filePath : String
  env : String
deriving DecidableEq

/-- One compiled unit produced by a transform; the graph layer reads its id
and its declared dependencies. -/
structure Asset where
  id : String
  dependencies : List Dependency
deriving DecidableEq

/-- The transform result fed into resolveTransformerRequest. -/
structure CacheEntry where
  assets : List Asset
deriving DecidableEq

/-- A request to load a named configuration relative to a file path. -/
structure ConfigRequest where
  filePath : String
  configType : String
deriving DecidableEq

/-- A resolved build-tool dependency (name, version). -/
structure DevDep where
  name : String
  version : String
deriving DecidableEq

/-- A build target; the graph layer reads only its environment. -/
structure Target where
  env : String
deriving DecidableEq

/-- Payload of a graph node: a closed tagged union mirroring the node variants
created by AssetGraph.js.  A dev-dep request is modelled by its serialization
(the source hashes JSON.stringify of it and otherwise treats it opaquely), as
is a resolved config value. -/
inductive NodeValue where
  | rootDir (dir : String)
  | dep (d : Dependency)
  | file (f : File)
  | glob (g : String)
  | transformerRequest (req : TransformerRequest)
  | asset (a : Asset)
  | configRequest (req : ConfigRequest)
  | config (c : String)
  | devDepRequest (req : String)
  | devDep (d : DevDep)
deriving DecidableEq

/-- A graph node: id, type tag and payload, exactly as the source's
plain-object nodes. -/
structure Node where
  id : String
  type : String
  value : NodeValue
deriving DecidableEq

/-- A directed typed edge; etype none is the default ("structural") edge type.
Edge identity is the (from, to, type) triple. -/
structure Edge where
  efrom : String
  eto : String
  etype : Option String
deriving DecidableEq

/-- Decidable equality for Except values, so concrete runs of the fallible
operations can be checked by evaluation. -/
instance exceptDecEq {α β : Type} [DecidableEq α] [DecidableEq β] :
    DecidableEq (Except α β) := fun x y =>
  match x, y with
  | Except.error a, Except.error b =>
    if h : a = b then Decidable.isTrue (by rw [h])
    else Decidable.isFalse (by intro hc; cases hc; exact h rfl)
  | Except.ok a, Except.ok b =>
    if h : a = b then Decidable.isTrue (by rw [h])
    else Decidable.isFalse (by intro hc; cases hc; exact h rfl)
  | Except.error _, Except.ok _ => Decidable.isFalse (by intro hc; cases hc)
  | Except.ok _, Except.error _ => Decidable.isFalse (by intro hc; cases hc)

/-- Modelled from the spec: md5FromString from the utils package (not in the
excerpt) content-addresses request payloads; modelled as an injective tagging
of the input string (hash collisions are outside the model). -/
def md5FromString (s : String) : String := "md5(" ++ s ++ ")"

def nodeFromRootDir (rootDir : String) : Node :=
  ⟨rootDir, "root", NodeValue.rootDir rootDir⟩

def nodeFromDep (dep : Dependency) : Node :=
  ⟨dep.id, "dependency", NodeValue.dep dep⟩

def nodeFromFile (file : File) : Node :=
  ⟨file.filePath, "file", NodeValue.file file⟩

def nodeFromGlob (glob : String) : Node :=
  ⟨glob, "glob", NodeValue.glob glob⟩

def nodeFromTransformerRequest (req : TransformerRequest) : Node :=
  ⟨md5FromString (req.filePath ++ ":" ++ req.env), "transformer_request",
    NodeValue.transformerRequest req⟩

def nodeFromAsset (asset : Asset) : Node :=
  ⟨asset.id, "asset", NodeValue.asset asset⟩

def nodeFromConfigRequest (req : ConfigRequest) : Node :=
  ⟨md5FromString (req.filePath ++ ":" ++ req.configType), "config_request",
    NodeValue.configRequest req⟩

def nodeFromConfig (config : String) : Node :=
  ⟨"TODO_MAKE_UNIQUE", "config", NodeValue.config config⟩

def nodeFromDevDepRequest (devDepRequest : String) : Node :=
  ⟨md5FromString devDepRequest, "dev_dep_request", NodeValue.devDepRequest devDepRequest⟩

def nodeFromDevDep (devDep : DevDep) : Node :=
  ⟨md5FromString (devDep.name ++ ":" ++ devDep.version), "dev_dep", NodeValue.devDep devDep⟩

/-- Insertion-ordered map from node id to node, modelling a JS Map: set on an
existing key updates in place, set on a fresh key appends. -/
abbrev NodeMap := List (String × Node)

def mapGet (m : NodeMap) (k : String) : Option Node :=
  match m with
  | [] => none
  | p :: rest => if p.1 = k then some p.2 else mapGet rest k

def mapSet (m : NodeMap) (k : String) (v : Node) : NodeMap :=
  match m with
  | [] => [(k, v)]
  | p :: rest => if p.1 = k then (k, v) :: rest else p :: mapSet rest k v

def mapDelete (m : NodeMap) (k : String) : NodeMap :=
  m.filter (fun p => p.1 != k)

/-- The build graph state: the generic graph's node and edge stores plus the
root pointer, and the two auxiliary indices owned by AssetGraph. -/
structure AssetGraph where
  nodes : NodeMap
  edges : List Edge
  rootNodeId : Option String
  incompleteNodes : NodeMap
  invalidNodes : NodeMap
deriving DecidableEq

def AssetGraph.empty : AssetGraph := ⟨[], [], none, [], []⟩

/-- Modelled from the spec: Graph.addNode (generic Graph is not in the
excerpt). -/
def AssetGraph.addNode (g : AssetGraph) (n : Node) : AssetGraph :=
  { g with nodes := mapSet g.nodes n.id n }

/-- Modelled from the spec: Graph.hasEdge; edge identity is the
(from, to, type) triple. -/
def AssetGraph.hasEdge (g : AssetGraph) (e : Edge) : Bool :=
  g.edges.contains e

/-- Modelled from the spec: Graph.addEdge. -/
def AssetGraph.addEdge (g : AssetGraph) (e : Edge) : AssetGraph :=
  { g with edges := g.edges ++ [e] }

/-- Modelled from the spec: Graph.setRootNode. -/
def AssetGraph.setRootNode (g : AssetGraph) (n : Node) : AssetGraph :=
  { g.addNode n with rootNodeId := some n.id }

/-- AssetGraph.removeNode (source lines 179-182): drops the node from the
incomplete index, then the generic removal deletes the node and all incident
edges.  The invalid index is not touched. -/
def AssetGraph.removeNode (g : AssetGraph) (n : Node) : AssetGraph :=
  { g with
    incompleteNodes := mapDelete g.incompleteNodes n.id,
    nodes := mapDelete g.nodes n.id,
    edges := g.edges.filter (fun e => !(e.efrom == n.id || e.eto == n.id)) }

/-- Modelled from the spec: Graph.getNodesConnectedTo; an unfiltered query
(etype none) returns edges of the default type only.  Edges whose endpoint is
absent from the node store are skipped. -/
def AssetGraph.getNodesConnectedTo (g : AssetGraph) (node : Node) (etype : Option String) :
    List Node :=
  (g.edges.filter (fun e => e.eto == node.id && e.etype == etype)).filterMap
    (fun e => mapGet g.nodes e.efrom)

/-- Modelled from the spec: Graph.getNodesConnectedFrom, symmetric to
getNodesConnectedTo. -/
def AssetGraph.getNodesConnectedFrom (g : AssetGraph) (node : Node) (etype : Option String) :
    List Node :=
  (g.edges.filter (fun e => e.efrom == node.id && e.etype == etype)).filterMap
    (fun e => mapGet g.nodes e.eto)

/-- Forward reachability over edges of every type, by fuelled breadth-first
expansion; fuel of edges.length + 1 saturates. -/
def reachableFrom (edges : List Edge) : Nat → List String → List String
  | 0, ids => ids
  | Nat.succ fuel, ids =>
    let fresh :=
      ((edges.filter (fun e => ids.contains e.efrom && !(ids.contains e.eto))).map
        (fun e => e.eto)).eraseDups
    if fresh.isEmpty then ids else reachableFrom edges fuel (ids ++ fresh)

/-- The two subgraphs returned by replaceNodesConnectedTo, carried as node
lists: the nodes newly inserted into the graph and the pruned nodes. -/
structure GraphDiff where
  addedNodes : List Node
  removedNodes : List Node
deriving DecidableEq

/-- One iteration of replace_nodes_connected_to's new-children loop: connect
one child, inserting it if absent (in which case it joins the added list) and
refreshing its stored value otherwise; the connecting edge is added unless it
already exists. -/
def replaceStep (fromNode : Node) (etype : Option String)
    (acc : AssetGraph × List Node) (toNode : Node) : AssetGraph × List Node :=
  let g1 := acc.1
  let g2 := match mapGet g1.nodes toNode.id with
    | some existing =>
      { g1 with nodes := mapSet g1.nodes toNode.id { existing with value := toNode.value } }
    | none => g1.addNode toNode
  let added := match mapGet g1.nodes toNode.id with
    | some _ => acc.2
    | none => acc.2 ++ [toNode]
  let e : Edge := ⟨fromNode.id, toNode.id, etype⟩
  (if g2.hasEdge e then g2 else g2.addEdge e, added)

/-- The new-children loop of replace_nodes_connected_to, returning the state
and the nodes newly inserted into the graph. -/
def replaceFold (fromNode : Node) (etype : Option String) (g : AssetGraph)
    (toNodes : List Node) : AssetGraph × List Node :=
  toNodes.foldl (replaceStep fromNode etype) (g, [])

/-- Remove the edges from the parent to the stale children along the given
edge type. -/
def disconnectEdges (g : AssetGraph) (fromId : String) (etype : Option String)
    (childrenToRemove : List Node) : AssetGraph :=
  { g with
    edges := g.edges.filter (fun e =>
      !(e.efrom == fromId && e.etype == etype &&
        childrenToRemove.any (fun c => c.id == e.eto))) }

/-- Transitive prune of the disconnected children: every node reachable from
a disconnected child (through any edge type) that is no longer reachable from
the root is removed from the graph; the removed nodes are returned. -/
def pruneDisconnected (g : AssetGraph) (childrenToRemove : List Node) :
    AssetGraph × List Node :=
  if childrenToRemove.isEmpty then (g, [])
  else
    let rooted := match g.rootNodeId with
      | some rid => reachableFrom g.edges (g.edges.length + 1) [rid]
      | none => []
    let candidates :=
      reachableFrom g.edges (g.edges.length + 1)
        ((childrenToRemove.map (fun c => c.id)).eraseDups)
    let removedIds := candidates.filter (fun i => !(rooted.contains i))
    let removedNodes := removedIds.filterMap (fun i => mapGet g.nodes i)
    (removedNodes.foldl AssetGraph.removeNode g, removedNodes)

/-- Modelled from the spec: the generic Graph's replace_nodes_connected_to,
the central reconciliation primitive.  Children present only in the new set
are connected (and inserted if absent, in which case they populate the added
subgraph); children in both sets keep their stored state, with the value
refreshed; children present only in the old set are disconnected, and any
disconnected child no longer reachable from the root is pruned together with
its exclusively-reachable descendants, populating the removed subgraph. -/
def AssetGraph.replaceNodesConnectedTo (g : AssetGraph) (fromNode : Node)
    (toNodes : List Node) (etype : Option String) : AssetGraph × GraphDiff :=
  let oldChildren := g.getNodesConnectedFrom fromNode etype
  let folded := replaceFold fromNode etype g toNodes
  let childrenToRemove := oldChildren.filter (fun c => !(toNodes.any (fun t => t.id == c.id)))
  let g2 := disconnectEdges folded.1 fromNode.id etype childrenToRemove
  let pruned := pruneDisconnected g2 childrenToRemove
  (pruned.1, ⟨folded.2, pruned.2⟩)

/-- Drop a key from both auxiliary indices (the opening move of every
resolve* operation). -/
def deleteFromIndices (g : AssetGraph) (k : String) : AssetGraph :=
  { g with
    incompleteNodes := mapDelete g.incompleteNodes k,
    invalidNodes := mapDelete g.invalidNodes k }

/-- Register one node in the incomplete index. -/
def setIncomplete (g : AssetGraph) (n : Node) : AssetGraph :=
  { g with incompleteNodes := mapSet g.incompleteNodes n.id n }

/-- getFilesFromGraph (source lines 95-97) applied to a diff's node list. -/
def getFilesFromNodes (nodes : List Node) : List File :=
  (nodes.filter (fun n => n.type == "file")).filterMap
    (fun n => match n.value with
      | NodeValue.file f => some f
      | _ => none)

/-- getDepNodesFromGraph (source lines 99-106) applied to a diff's node
list. -/
def getDepNodesFromNodes (nodes : List Node) : List Node :=
  nodes.filter (fun n => n.type == "dependency")

/-- Result record of resolveDependency. -/
structure DepUpdates where
  newRequestNode : Option Node
  prunedFiles : List File
deriving DecidableEq

/-- AssetGraph.resolveDependency (source lines 188-205). -/
def AssetGraph.resolveDependency (g : AssetGraph) (dep : Dependency)
    (req : TransformerRequest) : AssetGraph × DepUpdates :=
  let depNode := nodeFromDep dep
  let g1 := deleteFromIndices g depNode.id
  let requestNode := nodeFromTransformerRequest req
  let res := g1.replaceNodesConnectedTo depNode [requestNode] none
  if res.2.addedNodes.isEmpty then
    (res.1, ⟨none, getFilesFromNodes res.2.removedNodes⟩)
  else
    (setIncomplete res.1 requestNode,
      ⟨some requestNode, getFilesFromNodes res.2.removedNodes⟩)

/-- One iteration of resolveTransformerRequest's per-asset loop: make the
asset's declared dependencies its default-edge children and collect the
dependency nodes newly introduced by the diff. -/
def transformStep (acc : AssetGraph × List Node) (assetNode : Node) :
    AssetGraph × List Node :=
  let depNodes := (match assetNode.value with
    | NodeValue.asset a => a.dependencies
    | _ => []).map nodeFromDep
  let res := acc.1.replaceNodesConnectedTo assetNode depNodes none
  (res.1, acc.2 ++ getDepNodesFromNodes res.2.addedNodes)

/-- Register each node of the list in the incomplete index. -/
def registerIncomplete (g : AssetGraph) (nodes : List Node) : AssetGraph :=
  nodes.foldl setIncomplete g

/-- AssetGraph.resolveTransformerRequest (source lines 211-253); returns the
new state and the newDepNodes list. -/
def AssetGraph.resolveTransformerRequest (g : AssetGraph) (req : TransformerRequest)
    (cacheEntry : CacheEntry) : AssetGraph × List Node :=
  let requestNode := nodeFromTransformerRequest req
  let g1 := deleteFromIndices g requestNode.id
  let fileNodes := [nodeFromFile ⟨req.filePath⟩]
  let assetNodes := cacheEntry.assets.map nodeFromAsset
  let g2 := (g1.replaceNodesConnectedTo requestNode assetNodes (some "produces")).1
  let g3 := (g2.replaceNodesConnectedTo requestNode fileNodes (some "invalidated_by_change_to")).1
  let folded := assetNodes.foldl transformStep (g3, [])
  let newDepNodes := folded.2
  (registerIncomplete folded.1 newDepNodes, newDepNodes)

/-- AssetGraph.addConfigRequest (source lines 255-262). -/
def AssetGraph.addConfigRequest (g : AssetGraph) (configRequestNode : Node)
    (node : Node) : AssetGraph :=
  if (mapGet g.nodes configRequestNode.id).isSome then g
  else (g.addNode configRequestNode).addEdge ⟨node.id, configRequestNode.id, none⟩

/-- Modelled from the spec: isGlob from the utils package (not in the
excerpt); a pattern is a glob when it contains a wildcard. -/
def isGlob (pattern : String) : Bool := pattern.contains '*'

/-- Modelled from the spec: micromatch's isMatch (external collaborator); a
wildcard-free pattern matches only itself and a trailing-star pattern matches
any extension of its stem.  No claim depends on glob-matching semantics. -/
def isMatch (path : String) (pattern : String) : Bool :=
  if pattern.endsWith "*" then path.startsWith (pattern.dropRight 1) else path == pattern

/-- An (action, pattern) invalidation hint in a config-request result. -/
structure Invalidation where
  action : String
  invPattern : String
deriving DecidableEq

/-- The collaborator result fed into resolveConfigRequest. -/
structure ConfigResult where
  config : String
  devDepRequests : List String
  invalidations : List Invalidation
deriving DecidableEq

/-- getInvalidationEdgeType (source lines 490-501): maps a filesystem action
to the invalidation edge type, throwing on any other action. -/
def getInvalidationEdgeType (action : String) : Except String String :=
  if action = "change" then Except.ok "invalidated_by_change_to"
  else if action = "add" then Except.ok "invalidated_by_addition_matching"
  else if action = "unlink" then Except.ok "invalidated_by_removal_of"
  else Except.error ("Unrecognized invalidation action " ++ action)

/-- AssetGraph.resolveConfigRequest (source lines 264-311); returns the new
state and the devDepRequestNodes list. -/
def AssetGraph.resolveConfigRequest (g : AssetGraph) (result : ConfigResult)
    (configRequestNode : Node) : Except String (AssetGraph × List Node) := do
  let g1 := deleteFromIndices g configRequestNode.id
  let configNode := nodeFromConfig result.config
  let e : Edge := ⟨configRequestNode.id, configNode.id, none⟩
  let g2 := if g1.hasEdge e then g1 else (g1.addNode configNode).addEdge e
  let g3 ← result.invalidations.foldlM (fun h inv => do
    let invNode := if isGlob inv.invPattern then nodeFromGlob inv.invPattern
      else nodeFromFile ⟨inv.invPattern⟩
    let edgeType ← getInvalidationEdgeType inv.action
    let e2 : Edge := ⟨configRequestNode.id, invNode.id, some edgeType⟩
    if h.hasEdge e2 then pure h else pure ((h.addNode invNode).addEdge e2)) g2
  let step := fun (acc : AssetGraph × List Node) (ddr : String) =>
    let ddrNode := nodeFromDevDepRequest ddr
    let h := acc.1.addNode ddrNode
    let e3 : Edge := ⟨configRequestNode.id, ddrNode.id, some "configures"⟩
    if h.hasEdge e3 then (h, acc.2 ++ [ddrNode])
    else (setIncomplete (h.addEdge e3) ddrNode, acc.2 ++ [ddrNode])
  let folded := result.devDepRequests.foldl step (g3, [])
  pure (folded.1, folded.2)

/-- AssetGraph.resolveDevDepRequest (source lines 313-325). -/
def AssetGraph.resolveDevDepRequest (g : AssetGraph) (devDepRequestNode : Node)
    (devDep : DevDep) : AssetGraph :=
  let g1 := { g with incompleteNodes := mapDelete g.incompleteNodes devDepRequestNode.id }
  let devDepNode := nodeFromDevDep devDep
  let g2 := g1.addNode devDepNode
  let e : Edge := ⟨devDepRequestNode.id, devDepNode.id, some "resolves_to"⟩
  if g2.hasEdge e then g2 else g2.addEdge e

/-- AssetGraph.getActionNode (source lines 478-487): walks one or two
default-typed in-edges backward; the returned option is none exactly where
the JS dereferences undefined (which throws in the caller). -/
def AssetGraph.getActionNode (g : AssetGraph) (node : Node) : Option Node :=
  if node.type = "dev_dep_request" then
    match g.getNodesConnectedTo node none with
    | [] => none
    | configRequestNode :: _ =>
      match g.getNodesConnectedTo configRequestNode none with
      | [] => none
      | actionNode :: _ => some actionNode
  else if node.type = "config_request" then
    match g.getNodesConnectedTo node none with
    | [] => none
    | actionNode :: _ => some actionNode
  else none

/-- AssetGraph.invalidateNode (source lines 459-476): marks the node (and for
config/dev-dep requests also its action node) in the invalid index, throwing
on unrecognized node types and where the JS would dereference an undefined
action node. -/
def AssetGraph.invalidateNode (g : AssetGraph) (node : Node) : Except String AssetGraph :=
  if node.type = "transformer_request" ∨ node.type = "dependency" then
    Except.ok { g with invalidNodes := mapSet g.invalidNodes node.id node }
  else if node.type = "config_request" ∨ node.type = "dev_dep_request" then
    match g.getActionNode node with
    | none => Except.error "Cannot read property id of undefined action node"
    | some actionNode =>
      Except.ok { g with
        invalidNodes := mapSet (mapSet g.invalidNodes node.id node) actionNode.id actionNode }
  else
    Except.error ("Cannot invalidate node with unrecognized type " ++ node.type)

/-- The loop body of invalidateConnectedNodes: invalidate each node of the
list in order, propagating the first exception. -/
def AssetGraph.invalidateNodeList : AssetGraph → List Node → Except String AssetGraph
  | g, [] => Except.ok g
  | g, n :: rest =>
    match g.invalidateNode n with
    | Except.error msg => Except.error msg
    | Except.ok g2 => AssetGraph.invalidateNodeList g2 rest

/-- AssetGraph.invalidateConnectedNodes (source lines 452-457). -/
def AssetGraph.invalidateConnectedNodes (g : AssetGraph) (node : Node)
    (edgeType : String) : Except String AssetGraph :=
  AssetGraph.invalidateNodeList g (g.getNodesConnectedTo node (some edgeType))

/-- getGlobNodesFromGraph (source lines 426-428). -/
def AssetGraph.getGlobNodesFromGraph (g : AssetGraph) : List Node :=
  (g.nodes.map (fun p => p.2)).filter (fun n => n.type == "glob")

/-- The add-action loop of respondToFSChange over the graph's glob nodes. -/
def AssetGraph.invalidateMatchingGlobs :
    AssetGraph → String → String → List Node → Except String AssetGraph
  | g, _, _, [] => Except.ok g
  | g, path, edgeType, globNode :: rest =>
    match (match globNode.value with
      | NodeValue.glob pat =>
        if isMatch path pat then g.invalidateConnectedNodes globNode edgeType
        else Except.ok g
      | _ => Except.ok g) with
    | Except.error msg => Except.error msg
    | Except.ok g2 => AssetGraph.invalidateMatchingGlobs g2 path edgeType rest

/-- AssetGraph.respondToFSChange (source lines 434-450). -/
def AssetGraph.respondToFSChange (g : AssetGraph) (action : String)
    (path : String) : Except String AssetGraph := do
  let edgeType ← getInvalidationEdgeType action
  let g1 ← match mapGet g.nodes path with
    | some fileNode => g.invalidateConnectedNodes fileNode edgeType
    | none => pure g
  if action = "add" then
    AssetGraph.invalidateMatchingGlobs g1 path edgeType g1.getGlobNodesFromGraph
  else
    pure g1

/-- Options record of initializeGraph. -/
structure AssetGraphOpts where
  entries : Option (List String)
  targets : Option (List Target)
  transformerRequest : Option TransformerRequest
  rootDir : String
deriving DecidableEq

/-- Modelled from the spec: dependency ids are process-unique ids assigned at
creation; creation order inside initializeGraph is modelled positionally by
an injective id scheme. -/
def depIdAt (i : Nat) : String := "dep:" ++ String.mk (List.replicate i 'I')

/-- The Dependency records created by initializeGraph's nested entry/target
loops, in creation order. -/
def mkEntryDependencies (entries : List String) (targets : List Target) : List Dependency :=
  (entries.flatMap (fun e => targets.map (fun t => (e, t)))).enum.map
    (fun p => ⟨depIdAt p.1, p.2.1, p.2.2.env, true⟩)

/-- AssetGraph.initializeGraph (source lines 139-177). -/
def AssetGraph.initializeGraph (g : AssetGraph) (opts : AssetGraphOpts) :
    Except String AssetGraph :=
  let rootNode := nodeFromRootDir opts.rootDir
  let g1 := g.setRootNode rootNode
  let finish := fun (nodes : List Node) =>
    Except.ok (registerIncomplete (g1.replaceNodesConnectedTo rootNode nodes none).1 nodes)
  match opts.entries with
  | some entries =>
    match opts.targets with
    | none => Except.error "Targets are required when entries are specified"
    | some targets => finish ((mkEntryDependencies entries targets).map nodeFromDep)
  | none =>
    match opts.transformerRequest with
    | some req => finish [nodeFromTransformerRequest req]
    | none => finish []

/-! ## Basic lemmas about the insertion-ordered map model -/

theorem mapGet_set_self (m : NodeMap) (k : String) (v : Node) :
    mapGet (mapSet m k v) k = some v := by
  induction m with
  | nil => simp [mapSet, mapGet]
  | cons p rest ih =>
    by_cases h : p.1 = k
    · simp [mapSet, mapGet, h]
    · simp [mapSet, mapGet, h, ih]

theorem mapGet_set_ne (m : NodeMap) (k k2 : String) (v : Node) (h : k ≠ k2) :
    mapGet (mapSet m k v) k2 = mapGet m k2 := by
  induction m with
  | nil => simp [mapSet, mapGet, h]
  | cons p rest ih =>
    by_cases hp : p.1 = k
    · simp [mapSet, mapGet, hp, h]
    · simp [mapSet, mapGet, hp, ih]

theorem mapGet_delete_self (m : NodeMap) (k : String) :
    mapGet (mapDelete m k) k = none := by
  induction m with
  | nil => rfl
  | cons p rest ih =>
    by_cases hp : p.1 = k
    · simpa [mapDelete, List.filter_cons, bne_iff_ne, hp] using ih
    · simpa [mapDelete, List.filter_cons, bne_iff_ne, hp, mapGet] using ih

theorem mapGet_delete_ne (m : NodeMap) (k k2 : String) (h : k ≠ k2) :
    mapGet (mapDelete m k) k2 = mapGet m k2 := by
  induction m with
  | nil => rfl
  | cons p rest ih =>
    by_cases hp : p.1 = k
    · simpa [mapDelete, List.filter_cons, bne_iff_ne, hp, mapGet, h] using ih
    · by_cases hq : p.1 = k2
      · have h2 : k2 ≠ k := Ne.symm h
        simp [mapDelete, List.filter_cons, bne_iff_ne, hp, mapGet, hq, h2]
      · simpa [mapDelete, List.filter_cons, bne_iff_ne, hp, mapGet, hq] using ih

theorem mapSet_eq_of_get (m : NodeMap) (k : String) (v : Node) :
    mapGet m k = some v → mapSet m k v = m := by
  induction m with
  | nil => intro h; simp [mapGet] at h
  | cons p rest ih =>
    intro h
    by_cases hp : p.1 = k
    · have h2 : p.2 = v := by simpa [mapGet, hp] using h
      have hkv : (k, v) = p := by
        cases p
        simp only at hp h2
        simp [hp, h2]
      simp [mapSet, hp, hkv]
    · have h2 : mapGet rest k = some v := by simpa [mapGet, hp] using h
      simp [mapSet, hp, ih h2]

theorem mapDelete_eq_of_not_mem (m : NodeMap) (k : String) :
    (∀ p ∈ m, p.1 ≠ k) → mapDelete m k = m := by
  intro h
  simp only [mapDelete]
  exact List.filter_eq_self.mpr (fun p hp => by simpa [bne_iff_ne] using h p hp)

theorem mapGet_isSome_set (m : NodeMap) (k k2 : String) (v : Node)
    (h : (mapGet m k2).isSome) : (mapGet (mapSet m k v) k2).isSome := by
  by_cases hk : k = k2
  · rw [hk, mapGet_set_self]; rfl
  · rwa [mapGet_set_ne m k k2 v hk]

theorem mapGet_none_delete (m : NodeMap) (k k2 : String)
    (h : mapGet m k2 = none) : mapGet (mapDelete m k) k2 = none := by
  by_cases hk : k = k2
  · rw [hk, mapGet_delete_self]
  · rwa [mapGet_delete_ne m k k2 hk]

/-- A foldl-invariant preservation helper. -/
theorem foldlPreserve {α β : Type} {P : α → Prop} {s : α → β → α}
    (h : ∀ a b, P a → P (s a b)) :
    ∀ (l : List β) (a : α), P a → P (l.foldl s a) := by
  intro l
  induction l with
  | nil => intro a ha; exact ha
  | cons b rest ih => intro a ha; exact ih (s a b) (h a b ha)

/-! ## Lemmas about the reconciliation primitive -/

theorem replaceStep_proj (f : Node) (et : Option String)
    (acc : AssetGraph × List Node) (t : Node) :
    ((replaceStep f et acc t).1).invalidNodes = acc.1.invalidNodes ∧
    ((replaceStep f et acc t).1).incompleteNodes = acc.1.incompleteNodes := by
  rcases h : mapGet acc.1.nodes t.id with _ | existing <;>
    simp only [replaceStep, AssetGraph.addNode, AssetGraph.addEdge, h] <;>
    constructor <;> split <;> rfl

theorem foldl_replaceStep_invalid (f : Node) (et : Option String) (ts : List Node) :
    ∀ acc : AssetGraph × List Node,
      ((ts.foldl (replaceStep f et) acc).1).invalidNodes = acc.1.invalidNodes := by
  induction ts with
  | nil => intro acc; rfl
  | cons t rest ih =>
    intro acc
    rw [List.foldl_cons, ih (replaceStep f et acc t), (replaceStep_proj f et acc t).1]

theorem foldl_replaceStep_incomplete (f : Node) (et : Option String) (ts : List Node) :
    ∀ acc : AssetGraph × List Node,
      ((ts.foldl (replaceStep f et) acc).1).incompleteNodes = acc.1.incompleteNodes := by
  induction ts with
  | nil => intro acc; rfl
  | cons t rest ih =>
    intro acc
    rw [List.foldl_cons, ih (replaceStep f et acc t), (replaceStep_proj f et acc t).2]

theorem replaceFold_invalid (f : Node) (et : Option String) (g : AssetGraph)
    (ts : List Node) : ((replaceFold f et g ts).1).invalidNodes = g.invalidNodes :=
  foldl_replaceStep_invalid f et ts (g, [])

theorem replaceFold_incomplete (f : Node) (et : Option String) (g : AssetGraph)
    (ts : List Node) : ((replaceFold f et g ts).1).incompleteNodes = g.incompleteNodes :=
  foldl_replaceStep_incomplete f et ts (g, [])

theorem disconnectEdges_invalid (g : AssetGraph) (fid : String) (et : Option String)
    (ctr : List Node) : (disconnectEdges g fid et ctr).invalidNodes = g.invalidNodes := rfl

theorem disconnectEdges_incomplete (g : AssetGraph) (fid : String) (et : Option String)
    (ctr : List Node) : (disconnectEdges g fid et ctr).incompleteNodes = g.incompleteNodes := rfl

theorem removeNode_invalid (g : AssetGraph) (n : Node) :
    (g.removeNode n).invalidNodes = g.invalidNodes := rfl

theorem removeNode_incomplete (g : AssetGraph) (n : Node) :
    (g.removeNode n).incompleteNodes = mapDelete g.incompleteNodes n.id := rfl

theorem pruneDisconnected_invalid (g : AssetGraph) (ctr : List Node) :
    ((pruneDisconnected g ctr).1).invalidNodes = g.invalidNodes := by
  unfold pruneDisconnected
  split
  · rfl
  · dsimp only
    exact foldlPreserve (P := fun h => h.invalidNodes = g.invalidNodes)
      (s := AssetGraph.removeNode)
      (fun a b ha => by
        show (a.removeNode b).invalidNodes = g.invalidNodes
        rw [removeNode_invalid]; exact ha) _ g rfl

theorem pruneDisconnected_incomplete_none (g : AssetGraph) (ctr : List Node) (k : String)
    (h : mapGet g.incompleteNodes k = none) :
    mapGet ((pruneDisconnected g ctr).1).incompleteNodes k = none := by
  unfold pruneDisconnected
  split
  · exact h
  · dsimp only
    exact foldlPreserve (P := fun a => mapGet a.incompleteNodes k = none)
      (s := AssetGraph.removeNode)
      (fun a b ha => by
        show mapGet (a.removeNode b).incompleteNodes k = none
        rw [removeNode_incomplete]
        exact mapGet_none_delete a.incompleteNodes b.id k ha) _ g h

theorem replace_invalid (g : AssetGraph) (f : Node) (ts : List Node) (et : Option String) :
    ((g.replaceNodesConnectedTo f ts et).1).invalidNodes = g.invalidNodes := by
  simp only [AssetGraph.replaceNodesConnectedTo]
  rw [pruneDisconnected_invalid, disconnectEdges_invalid, replaceFold_invalid]

theorem replace_incomplete_none (g : AssetGraph) (f : Node) (ts : List Node)
    (et : Option String) (k : String) (h : mapGet g.incompleteNodes k = none) :
    mapGet ((g.replaceNodesConnectedTo f ts et).1).incompleteNodes k = none := by
  simp only [AssetGraph.replaceNodesConnectedTo]
  apply pruneDisconnected_incomplete_none
  rw [disconnectEdges_incomplete, replaceFold_incomplete]
  exact h

theorem replace_added (g : AssetGraph) (f : Node) (ts : List Node) (et : Option String) :
    (g.replaceNodesConnectedTo f ts et).2.addedNodes = (replaceFold f et g ts).2 := rfl

theorem replaceStep_noop (f : Node) (et : Option String) (acc : AssetGraph × List Node)
    (t : Node) (h1 : mapGet acc.1.nodes t.id = some t)
    (h2 : acc.1.hasEdge ⟨f.id, t.id, et⟩ = true) :
    replaceStep f et acc t = acc := by
  obtain ⟨g, lst⟩ := acc
  obtain ⟨ns, es, rt, inc, inv⟩ := g
  simp only [AssetGraph.hasEdge] at h2
  simp only at h1
  simp only [replaceStep, AssetGraph.hasEdge, h1]
  rw [show ({ t with value := t.value } : Node) = t from rfl]
  rw [mapSet_eq_of_get ns t.id t h1]
  rw [if_pos h2]

theorem replaceFold_noop (f : Node) (et : Option String) (g : AssetGraph) :
    ∀ ts : List Node,
      (∀ t ∈ ts, mapGet g.nodes t.id = some t) →
      (∀ t ∈ ts, g.hasEdge ⟨f.id, t.id, et⟩ = true) →
      replaceFold f et g ts = (g, []) := by
  intro ts
  induction ts with
  | nil => intro _ _; rfl
  | cons t rest ih =>
    intro h1 h2
    have hstep : replaceStep f et (g, []) t = (g, []) :=
      replaceStep_noop f et (g, []) t (h1 t (by simp)) (h2 t (by simp))
    calc replaceFold f et g (t :: rest)
        = rest.foldl (replaceStep f et) (replaceStep f et (g, []) t) := rfl
      _ = rest.foldl (replaceStep f et) (g, []) := by rw [hstep]
      _ = (g, []) := ih (fun x hx => h1 x (by simp [hx])) (fun x hx => h2 x (by simp [hx]))

theorem disconnectEdges_nil (g : AssetGraph) (fid : String) (et : Option String) :
    disconnectEdges g fid et [] = g := by
  obtain ⟨ns, es, rt, inc, inv⟩ := g
  simp [disconnectEdges]

theorem pruneDisconnected_nil (g : AssetGraph) : pruneDisconnected g [] = (g, []) := rfl

/-- Re-resolving with an unchanged child set is a complete no-op: the graph is
untouched and both diff subgraphs are empty. -/
theorem replace_noop (g : AssetGraph) (f : Node) (ts : List Node) (et : Option String)
    (h1 : ∀ t ∈ ts, mapGet g.nodes t.id = some t)
    (h2 : ∀ t ∈ ts, g.hasEdge ⟨f.id, t.id, et⟩ = true)
    (h3 : ∀ c ∈ g.getNodesConnectedFrom f et, ts.any (fun t => t.id == c.id) = true) :
    g.replaceNodesConnectedTo f ts et = (g, ⟨[], []⟩) := by
  have hctr : (g.getNodesConnectedFrom f et).filter
      (fun c => !(ts.any (fun t => t.id == c.id))) = [] := by
    apply List.filter_eq_nil_iff.mpr
    intro c hc
    simp [h3 c hc]
  simp only [AssetGraph.replaceNodesConnectedTo]
  rw [replaceFold_noop f et g ts h1 h2, hctr]
  rw [show ((g, []) : AssetGraph × List Node).1 = g from rfl]
  rw [disconnectEdges_nil, pruneDisconnected_nil]

theorem replaceFold_singleton (f : Node) (et : Option String) (g : AssetGraph) (t : Node) :
    replaceFold f et g [t] = replaceStep f et (g, []) t := rfl

theorem replaceStep_added_init (f : Node) (et : Option String) (g : AssetGraph) (t : Node) :
    (replaceStep f et (g, []) t).2 = if (mapGet g.nodes t.id).isSome then [] else [t] := by
  rcases h : mapGet g.nodes t.id with _ | v <;> simp [replaceStep, h]

theorem replace_singleton_added (g : AssetGraph) (f t : Node) (et : Option String) :
    (g.replaceNodesConnectedTo f [t] et).2.addedNodes
      = if (mapGet g.nodes t.id).isSome then [] else [t] := by
  rw [replace_added, replaceFold_singleton, replaceStep_added_init]

theorem deleteFromIndices_nodes (g : AssetGraph) (k : String) :
    (deleteFromIndices g k).nodes = g.nodes := rfl

theorem deleteFromIndices_edges (g : AssetGraph) (k : String) :
    (deleteFromIndices g k).edges = g.edges := rfl

theorem deleteFromIndices_incomplete (g : AssetGraph) (k : String) :
    (deleteFromIndices g k).incompleteNodes = mapDelete g.incompleteNodes k := rfl

theorem deleteFromIndices_invalid (g : AssetGraph) (k : String) :
    (deleteFromIndices g k).invalidNodes = mapDelete g.invalidNodes k := rfl

theorem setIncomplete_incomplete (g : AssetGraph) (n : Node) :
    (setIncomplete g n).incompleteNodes = mapSet g.incompleteNodes n.id n := rfl

theorem setIncomplete_invalid (g : AssetGraph) (n : Node) :
    (setIncomplete g n).invalidNodes = g.invalidNodes := rfl

theorem edgesFromFilter_nil (edges : List Edge) (nid : String) (et : Option String)
    (h : ∀ e ∈ edges, ¬(e.efrom = nid ∧ e.etype = et)) :
    edges.filter (fun e => e.efrom == nid && e.etype == et) = [] := by
  apply List.filter_eq_nil_iff.mpr
  intro e he
  simpa [Bool.and_eq_true, beq_iff_eq] using h e he

/-- A node with no outgoing edges of the given type has no connected-from
children. -/
theorem connectedFrom_nil_of_noedge (g : AssetGraph) (n : Node) (et : Option String)
    (h : ∀ e ∈ g.edges, ¬(e.efrom = n.id ∧ e.etype = et)) :
    g.getNodesConnectedFrom n et = [] := by
  unfold AssetGraph.getNodesConnectedFrom
  rw [edgesFromFilter_nil g.edges n.id et h]
  rfl

theorem registerIncomplete_invalid (g : AssetGraph) (l : List Node) :
    (registerIncomplete g l).invalidNodes = g.invalidNodes := by
  unfold registerIncomplete
  exact foldlPreserve (P := fun a => a.invalidNodes = g.invalidNodes)
    (s := setIncomplete)
    (fun a b ha => by
      show (setIncomplete a b).invalidNodes = g.invalidNodes
      rw [setIncomplete_invalid]; exact ha) l g rfl

theorem registerIncomplete_mono (g : AssetGraph) (l : List Node) (k : String)
    (h : (mapGet g.incompleteNodes k).isSome) :
    (mapGet (registerIncomplete g l).incompleteNodes k).isSome := by
  unfold registerIncomplete
  exact foldlPreserve (P := fun a => (mapGet a.incompleteNodes k).isSome)
    (s := setIncomplete)
    (fun a b ha => by
      show (mapGet (setIncomplete a b).incompleteNodes k).isSome
      rw [setIncomplete_incomplete]
      exact mapGet_isSome_set a.incompleteNodes b.id k b ha) l g h

/-- Every node of the registered list ends up in the incomplete index. -/
theorem registerIncomplete_marks (l : List Node) :
    ∀ (g : AssetGraph) (d : Node), d ∈ l →
      (mapGet (registerIncomplete g l).incompleteNodes d.id).isSome := by
  induction l with
  | nil => intro g d hd; cases hd
  | cons x rest ih =>
    intro g d hd
    rcases List.mem_cons.mp hd with hx | hrest
    · subst hx
      have hbase : (mapGet (setIncomplete g d).incompleteNodes d.id).isSome := by
        rw [setIncomplete_incomplete, mapGet_set_self]
        rfl
      have : registerIncomplete g (d :: rest) = registerIncomplete (setIncomplete g d) rest := rfl
      rw [this]
      exact registerIncomplete_mono (setIncomplete g d) rest d.id hbase
    · have : registerIncomplete g (x :: rest) = registerIncomplete (setIncomplete g x) rest := rfl
      rw [this]
      exact ih (setIncomplete g x) d hrest

theorem registerIncomplete_none_preserved (l : List Node) :
    ∀ (g : AssetGraph) (k : String), (∀ d ∈ l, d.id ≠ k) →
      mapGet g.incompleteNodes k = none →
      mapGet (registerIncomplete g l).incompleteNodes k = none := by
  induction l with
  | nil => intro g k _ h; exact h
  | cons x rest ih =>
    intro g k hne h
    have hstep : mapGet (setIncomplete g x).incompleteNodes k = none := by
      rw [setIncomplete_incomplete, mapGet_set_ne _ _ _ _ (hne x (by simp))]
      exact h
    have hrw : registerIncomplete g (x :: rest) = registerIncomplete (setIncomplete g x) rest := rfl
    rw [hrw]
    exact ih (setIncomplete g x) k (fun d hd => hne d (by simp [hd])) hstep

/-! ## Lemmas about the invalidation protocol -/

theorem exceptBindOk {α β : Type} (v : α) (f : α → Except String β) :
    ((Except.ok v : Except String α) >>= f) = f v := rfl

theorem exceptBindErr {α β : Type} (msg : String) (f : α → Except String β) :
    ((Except.error msg : Except String α) >>= f) = Except.error msg := rfl

theorem exceptPureEq {α : Type} (a : α) : (pure a : Except String α) = Except.ok a := rfl

theorem invalidateNode_mono (g g2 : AssetGraph) (n : Node) (k : String)
    (hok : g.invalidateNode n = Except.ok g2)
    (h : (mapGet g.invalidNodes k).isSome) :
    (mapGet g2.invalidNodes k).isSome := by
  unfold AssetGraph.invalidateNode at hok
  split at hok
  · cases hok
    exact mapGet_isSome_set _ _ _ _ h
  · split at hok
    · split at hok
      · cases hok
      · cases hok
        exact mapGet_isSome_set _ _ _ _ (mapGet_isSome_set _ _ _ _ h)
    · cases hok

theorem invalidateNode_marks (g g2 : AssetGraph) (n : Node)
    (hok : g.invalidateNode n = Except.ok g2) :
    (mapGet g2.invalidNodes n.id).isSome := by
  unfold AssetGraph.invalidateNode at hok
  split at hok
  · cases hok
    rw [mapGet_set_self]
    rfl
  · split at hok
    · split at hok
      · cases hok
      · cases hok
        apply mapGet_isSome_set
        rw [mapGet_set_self]
        rfl
    · cases hok

theorem invalidateNodeList_mono (l : List Node) :
    ∀ (g g2 : AssetGraph) (k : String),
      AssetGraph.invalidateNodeList g l = Except.ok g2 →
      (mapGet g.invalidNodes k).isSome → (mapGet g2.invalidNodes k).isSome := by
  induction l with
  | nil =>
    intro g g2 k hok h
    cases hok
    exact h
  | cons n rest ih =>
    intro g g2 k hok h
    rcases hn : g.invalidateNode n with msg | gm
    · simp only [AssetGraph.invalidateNodeList, hn] at hok
      cases hok
    · simp only [AssetGraph.invalidateNodeList, hn] at hok
      exact ih gm g2 k hok (invalidateNode_mono g gm n k hn h)

theorem invalidateNodeList_marks (l : List Node) :
    ∀ (g g2 : AssetGraph), AssetGraph.invalidateNodeList g l = Except.ok g2 →
      ∀ n ∈ l, (mapGet g2.invalidNodes n.id).isSome := by
  induction l with
  | nil =>
    intro g g2 _ n hn
    cases hn
  | cons x rest ih =>
    intro g g2 hok n hn
    rcases hx : g.invalidateNode x with msg | gm
    · simp only [AssetGraph.invalidateNodeList, hx] at hok
      cases hok
    · simp only [AssetGraph.invalidateNodeList, hx] at hok
      rcases List.mem_cons.mp hn with hh | hh
      · subst hh
        exact invalidateNodeList_mono rest gm g2 n.id hok (invalidateNode_marks g gm n hx)
      · exact ih gm g2 hok n hh

theorem invalidateConnectedNodes_mono (g g2 : AssetGraph) (node : Node) (etype : String)
    (k : String) (hok : g.invalidateConnectedNodes node etype = Except.ok g2)
    (h : (mapGet g.invalidNodes k).isSome) : (mapGet g2.invalidNodes k).isSome :=
  invalidateNodeList_mono _ g g2 k hok h

theorem invalidateMatchingGlobs_mono (l : List Node) :
    ∀ (g g2 : AssetGraph) (path etype k : String),
      AssetGraph.invalidateMatchingGlobs g path etype l = Except.ok g2 →
      (mapGet g.invalidNodes k).isSome → (mapGet g2.invalidNodes k).isSome := by
  induction l with
  | nil =>
    intro g g2 path etype k hok h
    cases hok
    exact h
  | cons x rest ih =>
    intro g g2 path etype k hok h
    rcases hv : x.value with d | d | d | pat | d | d | d | d | d | d <;>
      simp only [AssetGraph.invalidateMatchingGlobs, hv] at hok <;>
      first
      | exact ih g g2 path etype k hok h
      | skip
    by_cases hm : isMatch path pat
    · simp only [hm, if_true] at hok
      rcases hg : g.invalidateConnectedNodes x etype with msg | gm
      · simp only [hg] at hok
        cases hok
      · simp only [hg] at hok
        exact ih gm g2 path etype k hok (invalidateConnectedNodes_mono g gm x etype k hg h)
    · simp only [hm, if_false] at hok
      exact ih g g2 path etype k hok h

/-! ## Concrete fixtures used by the claim theorems -/

def nW : Node := ⟨"x", "dependency", NodeValue.dep ⟨"x", "./x", "node", false⟩⟩

/-- A one-node graph whose node sits in both indices. -/
def gW : AssetGraph := ⟨[("x", nW)], [], none, [("x", nW)], [("x", nW)]⟩

def cr1 : Node := nodeFromConfigRequest ⟨"/a", "babel"⟩

def cr2 : Node := nodeFromConfigRequest ⟨"/b", "babel"⟩

def g9 : AssetGraph := (AssetGraph.empty.addNode cr1).addNode cr2

def g9a : AssetGraph :=
  ((g9.resolveConfigRequest ⟨"cfgA", [], []⟩ cr1).toOption.map Prod.fst).getD AssetGraph.empty

def g9b : AssetGraph :=
  ((g9a.resolveConfigRequest ⟨"cfgB", [], []⟩ cr2).toOption.map Prod.fst).getD AssetGraph.empty

/-! ## Claims -/

/-- Claim C10: for every node, AssetGraph.removeNode deletes the node's entry
from the incomplete index but leaves the invalid index untouched, so a node
pruned from the graph while marked invalid remains in the invalid index even
though it is no longer in the graph. -/
theorem removeNode_frame (g : AssetGraph) (n : Node) :
    (g.removeNode n).incompleteNodes = mapDelete g.incompleteNodes n.id ∧
    (g.removeNode n).invalidNodes = g.invalidNodes ∧
    ((mapGet g.invalidNodes n.id).isSome →
      (mapGet (g.removeNode n).invalidNodes n.id).isSome ∧
      mapGet (g.removeNode n).nodes n.id = none) := by
  refine ⟨rfl, rfl, fun h => ⟨h, ?_⟩⟩
  show mapGet (mapDelete g.nodes n.id) n.id = none
  exact mapGet_delete_self g.nodes n.id

/-- Witness for C10: a concrete invalid node survives in the invalid index
after its removal from the graph. -/
theorem removeNode_frame_witness :
    (mapGet gW.invalidNodes nW.id).isSome = true ∧
    ((mapGet (gW.removeNode nW).invalidNodes nW.id).isSome = true ∧
      mapGet (gW.removeNode nW).nodes nW.id = none) :=
  ⟨by decide, (removeNode_frame gW nW).2.2 (by decide)⟩

/-- Claim C7: the invalidation-action mapping is exactly
change/add/unlink to the three invalidated_by edge types, any other action
makes getInvalidationEdgeType throw, and invalidateNode throws for any node
whose type is not one of the four request/dependency types. -/
theorem invalidation_mapping_spec :
    getInvalidationEdgeType "change" = Except.ok "invalidated_by_change_to" ∧
    getInvalidationEdgeType "add" = Except.ok "invalidated_by_addition_matching" ∧
    getInvalidationEdgeType "unlink" = Except.ok "invalidated_by_removal_of" ∧
    (∀ a : String, a ≠ "change" → a ≠ "add" → a ≠ "unlink" →
      ∃ msg, getInvalidationEdgeType a = Except.error msg) ∧
    (∀ (g : AssetGraph) (n : Node), n.type ≠ "dependency" →
      n.type ≠ "transformer_request" → n.type ≠ "config_request" →
      n.type ≠ "dev_dep_request" → ∃ msg, g.invalidateNode n = Except.error msg) := by
  refine ⟨rfl, rfl, rfl, ?_, ?_⟩
  · intro a h1 h2 h3
    refine ⟨"Unrecognized invalidation action " ++ a, ?_⟩
    unfold getInvalidationEdgeType
    rw [if_neg h1, if_neg h2, if_neg h3]
  · intro g n h1 h2 h3 h4
    refine ⟨"Cannot invalidate node with unrecognized type " ++ n.type, ?_⟩
    unfold AssetGraph.invalidateNode
    have hc1 : ¬(n.type = "transformer_request" ∨ n.type = "dependency") :=
      fun h => h.elim (fun hh => h2 hh) (fun hh => h1 hh)
    have hc2 : ¬(n.type = "config_request" ∨ n.type = "dev_dep_request") :=
      fun h => h.elim (fun hh => h3 hh) (fun hh => h4 hh)
    rw [if_neg hc1, if_neg hc2]

/-- Witness for C7: a "rename" action and a file-typed node both throw. -/
theorem invalidation_mapping_spec_witness :
    (∃ msg, getInvalidationEdgeType "rename" = Except.error msg) ∧
    (∃ msg, AssetGraph.empty.invalidateNode (nodeFromFile ⟨"/f"⟩) = Except.error msg) :=
  ⟨invalidation_mapping_spec.2.2.2.1 "rename" (by decide) (by decide) (by decide),
    invalidation_mapping_spec.2.2.2.2 AssetGraph.empty (nodeFromFile ⟨"/f"⟩)
      (by decide) (by decide) (by decide) (by decide)⟩

/-- Claim C9: nodeFromConfig gives every config value the same placeholder id,
so resolving two different config requests with two different config values
links both ConfigRequest nodes to one single shared Config node. -/
theorem nodeFromConfig_placeholder :
    (∀ c1 c2 : String, (nodeFromConfig c1).id = (nodeFromConfig c2).id) ∧
    g9b.hasEdge ⟨cr1.id, "TODO_MAKE_UNIQUE", none⟩ = true ∧
    g9b.hasEdge ⟨cr2.id, "TODO_MAKE_UNIQUE", none⟩ = true ∧
    (g9b.nodes.filter (fun p => p.2.type == "config")).length = 1 := by
  exact ⟨fun c1 c2 => rfl, by decide, by decide, by decide⟩

def actNode : Node := nodeFromTransformerRequest ⟨"/proj/index.js", "node14"⟩

def crNode : Node := nodeFromConfigRequest ⟨"/proj/index.js", "babel"⟩

def ddrNode : Node := nodeFromDevDepRequest "babel-core"

/-- The graph the code itself builds: a TransformerRequest that requested a
ConfigRequest (default edge, via addConfigRequest) whose resolution produced
one DevDepRequest (configures edge, via resolveConfigRequest). -/
def gC1 : AssetGraph :=
  ((((AssetGraph.empty.addNode actNode).addConfigRequest crNode actNode).resolveConfigRequest
      ⟨"cfg", ["babel-core"], []⟩ crNode).toOption.map Prod.fst).getD AssetGraph.empty

def tChain : Node := ⟨"t", "transformer_request", NodeValue.transformerRequest ⟨"/t", "e"⟩⟩

def cChain : Node := ⟨"c", "config_request", NodeValue.configRequest ⟨"/t", "babel"⟩⟩

def dChain : Node := ⟨"d", "dev_dep_request", NodeValue.devDepRequest "d"⟩

/-- A hypothetical chain t -> c -> d entirely over default-typed edges. -/
def gChain : AssetGraph :=
  ⟨[("t", tChain), ("c", cChain), ("d", dChain)],
    [⟨"t", "c", none⟩, ⟨"c", "d", none⟩], none, [], []⟩

/-- Counterexample for C1: in the graph built by the code's own
addConfigRequest/resolveConfigRequest, invalidating the DevDepRequest node
does not mark it, its ConfigRequest and the action node invalid — it throws,
because getActionNode walks default-typed edges while the ConfigRequest is
linked to the DevDepRequest by a configures-typed edge. -/
theorem invalidate_devDepRequest_counterexample :
    gC1.hasEdge ⟨crNode.id, ddrNode.id, some "configures"⟩ = true ∧
    ddrNode.type = "dev_dep_request" ∧
    gC1.invalidateNode ddrNode
      = Except.error "Cannot read property id of undefined action node" := by
  exact ⟨by decide, rfl, by decide⟩

/-- Claim C1 (amended): invalidating a ConfigRequest marks invalid the
ConfigRequest itself and its immediate parent action node (its first
default-typed in-neighbour).  Invalidating a DevDepRequest marks invalid the
DevDepRequest and the node two default-typed in-edges back (the action node),
but not the intermediate ConfigRequest; and since resolveConfigRequest links
ConfigRequest to DevDepRequest with a configures-typed edge, the walk finds
no parent on code-built graphs and invalidateNode throws there. -/
theorem invalidate_cascade_amended :
    (∀ (g : AssetGraph) (n a : Node) (rest : List Node), n.type = "config_request" →
      g.getNodesConnectedTo n none = a :: rest →
      g.invalidateNode n =
        Except.ok { g with invalidNodes := mapSet (mapSet g.invalidNodes n.id n) a.id a }) ∧
    ((gChain.invalidateNode dChain).map (fun g2 =>
      ((mapGet g2.invalidNodes dChain.id).isSome,
        (mapGet g2.invalidNodes tChain.id).isSome,
        (mapGet g2.invalidNodes cChain.id).isNone)) = Except.ok (true, true, true)) ∧
    (gC1.invalidateNode ddrNode).toOption = none := by
  refine ⟨?_, by decide, by decide⟩
  intro g n a rest hty hconn
  have hact : g.getActionNode n = some a := by
    unfold AssetGraph.getActionNode
    rw [hty]
    rw [if_neg (by decide), if_pos rfl, hconn]
  unfold AssetGraph.invalidateNode
  rw [hty]
  rw [if_neg (by decide), if_pos (Or.inl rfl), hact]

/-- Witness for C1 (amended): the ConfigRequest half applied to the concrete
chain graph. -/
theorem invalidate_cascade_amended_witness :
    gChain.invalidateNode cChain =
      Except.ok { gChain with
        invalidNodes := mapSet (mapSet gChain.invalidNodes cChain.id cChain) tChain.id tChain } :=
  invalidate_cascade_amended.1 gChain cChain tChain [] (by decide) (by decide)

def fileC2 : Node := nodeFromFile ⟨"/f"⟩

def cC2 : Node := ⟨"c", "config_request", NodeValue.configRequest ⟨"/f", "t"⟩⟩

def tC2 : Node := ⟨"t", "transformer_request", NodeValue.transformerRequest ⟨"/f", "e"⟩⟩

/-- A file node whose only invalidated_by_change_to in-neighbour is a
ConfigRequest, which in turn has a TransformerRequest parent over a default
edge. -/
def gC2 : AssetGraph :=
  ⟨[("/f", fileC2), ("c", cC2), ("t", tC2)],
    [⟨"t", "c", none⟩, ⟨"c", "/f", some "invalidated_by_change_to"⟩], none, [], []⟩

def gC2res : AssetGraph := (gC2.respondToFSChange "change" "/f").toOption.getD AssetGraph.empty

/-- Counterexample for C2: a change event on /f marks the action node t
invalid although t is not connected to the file via the change edge type, so
"exactly the connected nodes and nothing else" fails (the ConfigRequest
cascade reaches further). -/
theorem respondToFSChange_counterexample :
    (gC2.respondToFSChange "change" "/f").map
        (fun g2 => (mapGet g2.invalidNodes "t").isSome) = Except.ok true ∧
    (gC2.getNodesConnectedTo fileC2 (some "invalidated_by_change_to")).all
        (fun n => n.id != "t") = true := by
  exact ⟨by decide, by decide⟩

/-- Claim C2 (amended): when a node with id path exists, every node connected
to it via the action's edge type is marked invalid (connected ConfigRequest
and DevDepRequest nodes additionally cascade to their action node, so more
than the connected set may be marked, as the concrete run shows); when no
such node exists and the action is change or unlink, respondToFSChange
returns without an exception and leaves the graph, including both indices,
unchanged. -/
theorem respondToFSChange_amended :
    (∀ (g : AssetGraph) (action path : String),
      (action = "change" ∨ action = "unlink") → mapGet g.nodes path = none →
      g.respondToFSChange action path = Except.ok g) ∧
    (∀ (g g2 : AssetGraph) (action path et : String) (fnode : Node),
      getInvalidationEdgeType action = Except.ok et →
      mapGet g.nodes path = some fnode →
      g.respondToFSChange action path = Except.ok g2 →
      ∀ n ∈ g.getNodesConnectedTo fnode (some et),
        (mapGet g2.invalidNodes n.id).isSome) ∧
    (gC2.respondToFSChange "change" "/f").map
        (fun g2 => g2.invalidNodes.map (fun p => p.1)) = Except.ok ["c", "t"] := by
  refine ⟨?_, ?_, by decide⟩
  · intro g action path ha hpath
    rcases ha with ha | ha <;> subst ha <;>
      simp [AssetGraph.respondToFSChange, getInvalidationEdgeType, hpath,
        exceptBindOk, exceptPureEq]
  · intro g g2 action path et fnode het hpath hok n hn
    unfold AssetGraph.respondToFSChange at hok
    rw [het] at hok
    rw [exceptBindOk] at hok
    rw [hpath] at hok
    dsimp only at hok
    rcases hmid : g.invalidateConnectedNodes fnode et with msg | gm
    · rw [hmid, exceptBindErr] at hok
      cases hok
    · rw [hmid, exceptBindOk] at hok
      have hmarked : (mapGet gm.invalidNodes n.id).isSome :=
        invalidateNodeList_marks _ g gm hmid n hn
      by_cases hadd : action = "add"
      · rw [if_pos hadd] at hok
        exact invalidateMatchingGlobs_mono _ gm g2 path et n.id hok hmarked
      · rw [if_neg hadd] at hok
        rw [exceptPureEq] at hok
        cases hok
        exact hmarked

/-- Witness for C2 (amended): an unlink for an unknown path is a no-op on a
concrete graph, and the change event on /f does mark the connected
ConfigRequest. -/
theorem respondToFSChange_amended_witness :
    gC2.respondToFSChange "unlink" "/nope" = Except.ok gC2 ∧
    (mapGet gC2res.invalidNodes cC2.id).isSome = true :=
  ⟨respondToFSChange_amended.1 gC2 "unlink" "/nope" (Or.inr rfl) (by decide),
    respondToFSChange_amended.2.1 gC2 gC2res "change" "/f" "invalidated_by_change_to"
      fileC2 rfl (by decide) (by decide) cC2 (by decide)⟩

def rootN : Node := nodeFromRootDir "/"

def req0 : TransformerRequest := ⟨"/proj/index.js", "node14"⟩

def reqNode0 : Node := nodeFromTransformerRequest req0

def dep1 : Dependency := ⟨"d1", "./index.js", "node14", true⟩

def dep2 : Dependency := ⟨"d2", "./index.js", "node14", false⟩

/-- Root with two unresolved Dependency children. -/
def gTwoDeps : AssetGraph :=
  ⟨[("/", rootN), ("d1", nodeFromDep dep1), ("d2", nodeFromDep dep2)],
    [⟨"/", "d1", none⟩, ⟨"/", "d2", none⟩], some "/",
    [("d1", nodeFromDep dep1), ("d2", nodeFromDep dep2)], []⟩

/-- Both dependencies resolved to the same file + environment. -/
def gShared : AssetGraph :=
  ((gTwoDeps.resolveDependency dep1 req0).1.resolveDependency dep2 req0).1

/-- gShared after the root's child set is reduced to dep2 only, pruning
dep1. -/
def gOneDep : AssetGraph := (gShared.replaceNodesConnectedTo rootN [nodeFromDep dep2] none).1

def reqOldNode : Node := nodeFromTransformerRequest ⟨"/old.js", "node14"⟩

/-- A dependency already resolved to a stale request whose file node hangs
off it; re-resolution must prune both. -/
def gStale : AssetGraph :=
  ⟨[("/", rootN), ("d1", nodeFromDep dep1), (reqOldNode.id, reqOldNode),
      ("/old.js", nodeFromFile ⟨"/old.js"⟩)],
    [⟨"/", "d1", none⟩, ⟨"d1", reqOldNode.id, none⟩,
      ⟨reqOldNode.id, "/old.js", some "invalidated_by_change_to"⟩],
    some "/", [], []⟩

/-- Claim C3: resolveDependency removes the dependency from both indices,
returns the content-addressed request node as newRequestNode (registering it
in incomplete) exactly when it is newly inserted into the graph, makes it
the dependency's sole default-edge child, and reports the File nodes of the
pruned subgraph as prunedFiles (exercised on the concrete stale
re-resolution). -/
theorem resolveDependency_spec (g : AssetGraph) (dep : Dependency)
    (req : TransformerRequest) :
    (dep.id ≠ (nodeFromTransformerRequest req).id →
      mapGet ((g.resolveDependency dep req).1).incompleteNodes dep.id = none) ∧
    mapGet ((g.resolveDependency dep req).1).invalidNodes dep.id = none ∧
    ((g.resolveDependency dep req).2.newRequestNode = some (nodeFromTransformerRequest req)
      ↔ mapGet g.nodes (nodeFromTransformerRequest req).id = none) ∧
    (mapGet g.nodes (nodeFromTransformerRequest req).id = none →
      mapGet ((g.resolveDependency dep req).1).incompleteNodes
        (nodeFromTransformerRequest req).id = some (nodeFromTransformerRequest req)) ∧
    (mapGet g.nodes (nodeFromTransformerRequest req).id = none →
      (∀ e ∈ g.edges, ¬(e.efrom = dep.id ∧ e.etype = (none : Option String))) →
      ((g.resolveDependency dep req).1).getNodesConnectedFrom (nodeFromDep dep) none
          = [nodeFromTransformerRequest req] ∧
        (g.resolveDependency dep req).2.prunedFiles = []) ∧
    ((gStale.resolveDependency dep1 req0).2.prunedFiles = [⟨"/old.js"⟩] ∧
      ((gStale.resolveDependency dep1 req0).1).getNodesConnectedFrom (nodeFromDep dep1) none
        = [reqNode0]) := by
  have hadd : ((deleteFromIndices g (nodeFromDep dep).id).replaceNodesConnectedTo
      (nodeFromDep dep) [nodeFromTransformerRequest req] none).2.addedNodes
      = if (mapGet g.nodes (nodeFromTransformerRequest req).id).isSome then []
        else [nodeFromTransformerRequest req] := by
    rw [replace_singleton_added]
    rfl
  refine ⟨?_, ?_, ?_, ?_, ?_, by decide, by decide⟩
  · intro hne
    unfold AssetGraph.resolveDependency
    dsimp only
    split
    · apply replace_incomplete_none
      rw [deleteFromIndices_incomplete]
      exact mapGet_delete_self g.incompleteNodes dep.id
    · rw [setIncomplete_incomplete,
        mapGet_set_ne _ _ _ _ (Ne.symm hne)]
      apply replace_incomplete_none
      rw [deleteFromIndices_incomplete]
      exact mapGet_delete_self g.incompleteNodes dep.id
  · unfold AssetGraph.resolveDependency
    dsimp only
    split
    · rw [replace_invalid, deleteFromIndices_invalid]
      exact mapGet_delete_self g.invalidNodes dep.id
    · rw [setIncomplete_invalid, replace_invalid, deleteFromIndices_invalid]
      exact mapGet_delete_self g.invalidNodes dep.id
  · unfold AssetGraph.resolveDependency
    dsimp only
    rcases hg : mapGet g.nodes (nodeFromTransformerRequest req).id with _ | v
    · rw [hg] at hadd
      simp only [Option.isSome_none, Bool.false_eq_true, if_false] at hadd
      rw [hadd]
      simp [hg]
    · rw [hg] at hadd
      simp only [Option.isSome_some, if_true] at hadd
      rw [hadd]
      simp [hg]
  · intro hg
    unfold AssetGraph.resolveDependency
    dsimp only
    rw [hg] at hadd
    simp only [Option.isSome_none, Bool.false_eq_true, if_false] at hadd
    rw [hadd]
    simp only [List.isEmpty_cons, Bool.false_eq_true, if_false]
    rw [setIncomplete_incomplete, mapGet_set_self]
  · intro hg hnoedge
    have hold : (deleteFromIndices g (nodeFromDep dep).id).getNodesConnectedFrom
        (nodeFromDep dep) none = [] :=
      connectedFrom_nil_of_noedge _ _ none (fun e he => hnoedge e he)
    have hhe : ((deleteFromIndices g (nodeFromDep dep).id).addNode
        (nodeFromTransformerRequest req)).hasEdge
          ⟨(nodeFromDep dep).id, (nodeFromTransformerRequest req).id, none⟩ = false := by
      show g.edges.contains
        ⟨(nodeFromDep dep).id, (nodeFromTransformerRequest req).id, none⟩ = false
      cases hc : g.edges.contains
          ⟨(nodeFromDep dep).id, (nodeFromTransformerRequest req).id, none⟩
      · rfl
      · exfalso
        have hmem : (⟨(nodeFromDep dep).id, (nodeFromTransformerRequest req).id, none⟩ :
            Edge) ∈ g.edges := by simpa using hc
        exact hnoedge _ hmem ⟨rfl, rfl⟩
    have hstep : replaceStep (nodeFromDep dep) none
        (deleteFromIndices g (nodeFromDep dep).id, []) (nodeFromTransformerRequest req)
        = (((deleteFromIndices g (nodeFromDep dep).id).addNode
            (nodeFromTransformerRequest req)).addEdge
            ⟨(nodeFromDep dep).id, (nodeFromTransformerRequest req).id, none⟩,
          [nodeFromTransformerRequest req]) := by
      have hg2 : mapGet (deleteFromIndices g (nodeFromDep dep).id).nodes
          (nodeFromTransformerRequest req).id = none := hg
      simp only [replaceStep, hg2, hhe, Bool.false_eq_true, if_false]
      rfl
    have hrep : (deleteFromIndices g (nodeFromDep dep).id).replaceNodesConnectedTo
        (nodeFromDep dep) [nodeFromTransformerRequest req] none
        = (((deleteFromIndices g (nodeFromDep dep).id).addNode
            (nodeFromTransformerRequest req)).addEdge
            ⟨(nodeFromDep dep).id, (nodeFromTransformerRequest req).id, none⟩,
          ⟨[nodeFromTransformerRequest req], []⟩) := by
      unfold AssetGraph.replaceNodesConnectedTo
      dsimp only
      rw [hold, replaceFold_singleton, hstep]
      rw [show ([] : List Node).filter
          (fun c => !([nodeFromTransformerRequest req].any (fun t => t.id == c.id))) = []
        from rfl]
      rw [disconnectEdges_nil, pruneDisconnected_nil]
    unfold AssetGraph.resolveDependency
    dsimp only
    rw [hrep]
    simp only [List.isEmpty_cons, if_neg (by simp : ¬(false = true))]
    constructor
    · show AssetGraph.getNodesConnectedFrom _ (nodeFromDep dep) none
        = [nodeFromTransformerRequest req]
      unfold AssetGraph.getNodesConnectedFrom
      show (((g.edges ++ [(⟨(nodeFromDep dep).id, (nodeFromTransformerRequest req).id,
          none⟩ : Edge)]).filter
          (fun e : Edge =>
            e.efrom == (nodeFromDep dep).id && e.etype == (none : Option String)))).filterMap
          _ = _
      rw [List.filter_append,
        edgesFromFilter_nil g.edges (nodeFromDep dep).id none (fun e he => hnoedge e he)]
      simp only [List.nil_append, List.filter_cons, List.filter_nil]
      rw [if_pos (by simp)]
      show List.filterMap _ [_] = _
      simp only [List.filterMap_cons, List.filterMap_nil]
      have hlast : mapGet (setIncomplete
          (((deleteFromIndices g (nodeFromDep dep).id).addNode
              (nodeFromTransformerRequest req)).addEdge
            ⟨(nodeFromDep dep).id, (nodeFromTransformerRequest req).id, none⟩)
          (nodeFromTransformerRequest req)).nodes (nodeFromTransformerRequest req).id
          = some (nodeFromTransformerRequest req) :=
        mapGet_set_self g.nodes (nodeFromTransformerRequest req).id
          (nodeFromTransformerRequest req)
      rw [hlast]
    · rfl

/-- Witness for C3: the universal parts applied at the concrete two-dependency
fixture. -/
theorem resolveDependency_spec_witness :
    mapGet ((gTwoDeps.resolveDependency dep1 req0).1).incompleteNodes dep1.id = none ∧
    ((gTwoDeps.resolveDependency dep1 req0).1).getNodesConnectedFrom (nodeFromDep dep1) none
      = [reqNode0] :=
  ⟨(resolveDependency_spec gTwoDeps dep1 req0).1 (by decide),
    ((resolveDependency_spec gTwoDeps dep1 req0).2.2.2.2.1 (by decide)
      (by decide)).1⟩

/-- Claim C4: nodeFromTransformerRequest is determined by file path and
environment, so two dependencies resolving to the same file + environment
share exactly one TransformerRequest node, and pruning one of the two
dependencies keeps the shared request alive through the other. -/
theorem transformerRequest_sharing :
    (∀ r1 r2 : TransformerRequest, r1.filePath = r2.filePath → r1.env = r2.env →
      (nodeFromTransformerRequest r1).id = (nodeFromTransformerRequest r2).id) ∧
    (gShared.nodes.filter (fun p => p.2.type == "transformer_request")).length = 1 ∧
    gShared.hasEdge ⟨"d1", reqNode0.id, none⟩ = true ∧
    gShared.hasEdge ⟨"d2", reqNode0.id, none⟩ = true ∧
    (mapGet gOneDep.nodes reqNode0.id).isSome = true ∧
    mapGet gOneDep.nodes "d1" = none ∧
    gOneDep.hasEdge ⟨"d2", reqNode0.id, none⟩ = true := by
  refine ⟨?_, by decide, by decide, by decide, by decide, by decide, by decide⟩
  intro r1 r2 h1 h2
  simp [nodeFromTransformerRequest, h1, h2]

/-- Witness for C4: the id-determinism part at concrete requests. -/
theorem transformerRequest_sharing_witness :
    (nodeFromTransformerRequest ⟨"/a.js", "node"⟩).id
      = (nodeFromTransformerRequest ⟨"/a.js", "node"⟩).id :=
  transformerRequest_sharing.1 ⟨"/a.js", "node"⟩ ⟨"/a.js", "node"⟩ rfl rfl

/-! ## Lemmas about resolveTransformerRequest -/

theorem transformStep_invalid (acc : AssetGraph × List Node) (an : Node) :
    ((transformStep acc an).1).invalidNodes = acc.1.invalidNodes := by
  unfold transformStep
  dsimp only
  rw [replace_invalid]

theorem foldl_transformStep_invalid (l : List Node) :
    ∀ acc : AssetGraph × List Node,
      ((l.foldl transformStep acc).1).invalidNodes = acc.1.invalidNodes := by
  induction l with
  | nil => intro acc; rfl
  | cons an rest ih =>
    intro acc
    rw [List.foldl_cons, ih (transformStep acc an), transformStep_invalid]

theorem transformStep_incomplete_none (acc : AssetGraph × List Node) (an : Node)
    (k : String) (h : mapGet acc.1.incompleteNodes k = none) :
    mapGet ((transformStep acc an).1).incompleteNodes k = none := by
  unfold transformStep
  dsimp only
  exact replace_incomplete_none _ _ _ _ _ h

theorem foldl_transformStep_incomplete_none (l : List Node) :
    ∀ (acc : AssetGraph × List Node) (k : String),
      mapGet acc.1.incompleteNodes k = none →
      mapGet ((l.foldl transformStep acc).1).incompleteNodes k = none := by
  induction l with
  | nil => intro acc k h; exact h
  | cons an rest ih =>
    intro acc k h
    rw [List.foldl_cons]
    exact ih (transformStep acc an) k (transformStep_incomplete_none acc an k h)

theorem replaceStep_added (f : Node) (et : Option String) (acc : AssetGraph × List Node)
    (t : Node) :
    (replaceStep f et acc t).2 = match mapGet acc.1.nodes t.id with
      | some _ => acc.2
      | none => acc.2 ++ [t] := by
  rcases h : mapGet acc.1.nodes t.id with _ | v <;> simp [replaceStep, h]

theorem foldl_replaceStep_added_sub (f : Node) (et : Option String) (ts : List Node) :
    ∀ (acc : AssetGraph × List Node) (x : Node),
      x ∈ (ts.foldl (replaceStep f et) acc).2 → x ∈ acc.2 ∨ x ∈ ts := by
  induction ts with
  | nil =>
    intro acc x hx
    exact Or.inl hx
  | cons t rest ih =>
    intro acc x hx
    rw [List.foldl_cons] at hx
    rcases ih (replaceStep f et acc t) x hx with hh | hh
    · rw [replaceStep_added] at hh
      rcases hmt : mapGet acc.1.nodes t.id with _ | v
      · rw [hmt] at hh
        rcases List.mem_append.mp hh with h1 | h1
        · exact Or.inl h1
        · exact Or.inr (by
            rw [List.mem_singleton.mp h1]
            exact List.mem_cons_self t rest)
      · rw [hmt] at hh
        exact Or.inl hh
    · exact Or.inr (List.mem_cons_of_mem t hh)

theorem replace_added_sub (g : AssetGraph) (f : Node) (ts : List Node) (et : Option String)
    (x : Node) (hx : x ∈ (g.replaceNodesConnectedTo f ts et).2.addedNodes) : x ∈ ts := by
  rw [replace_added] at hx
  rcases foldl_replaceStep_added_sub f et ts (g, []) x hx with hh | hh
  · cases hh
  · exact hh

/-- Every node of a resolveTransformerRequest newDepNodes list is a
dependency node of one of the produced assets. -/
theorem foldl_transformStep_mem (l : List Node) :
    ∀ (acc : AssetGraph × List Node) (x : Node), x ∈ (l.foldl transformStep acc).2 →
      x ∈ acc.2 ∨ ∃ an ∈ l, ∃ a : Asset, an.value = NodeValue.asset a ∧
        ∃ d ∈ a.dependencies, x = nodeFromDep d := by
  induction l with
  | nil =>
    intro acc x hx
    exact Or.inl hx
  | cons an rest ih =>
    intro acc x hx
    rw [List.foldl_cons] at hx
    rcases ih (transformStep acc an) x hx with hh | hh
    · unfold transformStep at hh
      dsimp only at hh
      rcases List.mem_append.mp hh with h1 | h1
      · exact Or.inl h1
      · have hsub : x ∈ (match an.value with
            | NodeValue.asset a => a.dependencies
            | _ => []).map nodeFromDep := by
          have := List.mem_filter.mp h1
          exact replace_added_sub acc.1 an _ none x this.1
        rcases hv : an.value with d | d | d | d | d | a | d | d | d | d <;> rw [hv] at hsub
        case asset =>
          rcases List.mem_map.mp hsub with ⟨d, hd, rfl⟩
          exact Or.inr ⟨an, List.mem_cons_self an rest, a, hv, d, hd, rfl⟩
        all_goals simp at hsub
    · rcases hh with ⟨an2, han2, rest2⟩
      exact Or.inr ⟨an2, List.mem_cons_of_mem an han2, rest2⟩

theorem deleteFromIndices_id (g : AssetGraph) (k : String)
    (hi : ∀ p ∈ g.incompleteNodes, p.1 ≠ k) (hv : ∀ p ∈ g.invalidNodes, p.1 ≠ k) :
    deleteFromIndices g k = g := by
  obtain ⟨ns, es, rt, inc, inv⟩ := g
  unfold deleteFromIndices
  simp only at hi hv
  rw [mapDelete_eq_of_not_mem inc k hi, mapDelete_eq_of_not_mem inv k hv]

def depX : Dependency := ⟨"dx", "./x", "node14", false⟩

def ceC6 : CacheEntry := ⟨[⟨"a1", [depX]⟩, ⟨"a2", []⟩]⟩

/-- A rooted graph holding one incomplete-and-invalid transformer request. -/
def gReq : AssetGraph :=
  ⟨[("/", rootN), (reqNode0.id, reqNode0)], [⟨"/", reqNode0.id, none⟩], some "/",
    [(reqNode0.id, reqNode0)], [(reqNode0.id, reqNode0)]⟩

def gC6 : AssetGraph := (gReq.resolveTransformerRequest req0 ceC6).1

/-- Claim C6: resolveTransformerRequest removes the request from the
incomplete and invalid indices, connects the request node to a File node for
the request's path via invalidated_by_change_to and to the produced Asset
nodes via produces, connects each asset to its declared dependencies on
default edges, and every newly introduced Dependency node is returned in
newDepNodes and registered in incomplete (edge wiring exercised on the
concrete two-asset scenario). -/
theorem resolveTransformerRequest_spec (g : AssetGraph) (req : TransformerRequest)
    (ce : CacheEntry) :
    mapGet ((g.resolveTransformerRequest req ce).1).invalidNodes
      (nodeFromTransformerRequest req).id = none ∧
    ((∀ a ∈ ce.assets, ∀ d ∈ a.dependencies, d.id ≠ (nodeFromTransformerRequest req).id) →
      mapGet ((g.resolveTransformerRequest req ce).1).incompleteNodes
        (nodeFromTransformerRequest req).id = none) ∧
    (∀ d ∈ (g.resolveTransformerRequest req ce).2,
      (mapGet ((g.resolveTransformerRequest req ce).1).incompleteNodes d.id).isSome) ∧
    (gC6.hasEdge ⟨reqNode0.id, "a1", some "produces"⟩ = true ∧
      gC6.hasEdge ⟨reqNode0.id, "a2", some "produces"⟩ = true ∧
      gC6.hasEdge ⟨reqNode0.id, "/proj/index.js", some "invalidated_by_change_to"⟩ = true ∧
      (mapGet gC6.nodes "/proj/index.js").isSome = true ∧
      gC6.hasEdge ⟨"a1", "dx", none⟩ = true ∧
      (gReq.resolveTransformerRequest req0 ceC6).2 = [nodeFromDep depX] ∧
      (mapGet gC6.incompleteNodes "dx").isSome = true ∧
      mapGet gC6.incompleteNodes reqNode0.id = none ∧
      mapGet gC6.invalidNodes reqNode0.id = none) := by
  have hmem : ∀ (g3 : AssetGraph) (x : Node),
      x ∈ ((ce.assets.map nodeFromAsset).foldl transformStep (g3, [])).2 →
      ∃ a ∈ ce.assets, ∃ d ∈ a.dependencies, x = nodeFromDep d := by
    intro g3 x hx
    rcases foldl_transformStep_mem _ _ x hx with hh | hh
    · cases hh
    · rcases hh with ⟨an, han, a, hav, d, hd, rfl⟩
      rcases List.mem_map.mp han with ⟨a2, ha2, rfl⟩
      have ha2a : a2 = a := by
        simpa [nodeFromAsset, NodeValue.asset.injEq] using hav
      subst ha2a
      exact ⟨a2, ha2, d, hd, rfl⟩
  refine ⟨?_, ?_, ?_,
    by decide, by decide, by decide, by decide, by decide, by decide, by decide,
    by decide, by decide⟩
  · unfold AssetGraph.resolveTransformerRequest
    dsimp only
    rw [registerIncomplete_invalid, foldl_transformStep_invalid, replace_invalid,
      replace_invalid, deleteFromIndices_invalid]
    exact mapGet_delete_self _ _
  · intro hne
    unfold AssetGraph.resolveTransformerRequest
    dsimp only
    apply registerIncomplete_none_preserved
    · intro d hd
      rcases hmem _ d hd with ⟨a, ha, dd, hdd, rfl⟩
      exact hne a ha dd hdd
    · apply foldl_transformStep_incomplete_none
      apply replace_incomplete_none
      apply replace_incomplete_none
      rw [deleteFromIndices_incomplete]
      exact mapGet_delete_self _ _
  · intro d hd
    unfold AssetGraph.resolveTransformerRequest at hd ⊢
    dsimp only at hd ⊢
    exact registerIncomplete_marks _ _ d hd

/-- Witness for C6: the incomplete-removal conjunct at the concrete
scenario. -/
theorem resolveTransformerRequest_spec_witness :
    mapGet ((gReq.resolveTransformerRequest req0 ceC6).1).incompleteNodes
      reqNode0.id = none :=
  (resolveTransformerRequest_spec gReq req0 ceC6).2.1 (by decide)

/-- Claim C5: resolving a transformer request a second time with an identical
request and identical result is a no-op: the hypotheses say the graph already
reflects the result (as holds after a first resolution); then the state is
returned unchanged — no duplicate edges — all three child-replacement diffs
are empty, and newDepNodes is empty. -/
theorem resolveTransformerRequest_idempotent (g : AssetGraph) (req : TransformerRequest)
    (ce : CacheEntry)
    (hinc : ∀ p ∈ g.incompleteNodes, p.1 ≠ (nodeFromTransformerRequest req).id)
    (hinv : ∀ p ∈ g.invalidNodes, p.1 ≠ (nodeFromTransformerRequest req).id)
    (hassets : ∀ a ∈ ce.assets, mapGet g.nodes a.id = some (nodeFromAsset a) ∧
      g.hasEdge ⟨(nodeFromTransformerRequest req).id, a.id, some "produces"⟩ = true)
    (hpchild : ∀ c ∈ g.getNodesConnectedFrom (nodeFromTransformerRequest req)
        (some "produces"),
      (ce.assets.map nodeFromAsset).any (fun t => t.id == c.id) = true)
    (hfile : mapGet g.nodes req.filePath = some (nodeFromFile ⟨req.filePath⟩) ∧
      g.hasEdge ⟨(nodeFromTransformerRequest req).id, req.filePath,
        some "invalidated_by_change_to"⟩ = true)
    (hfchild : ∀ c ∈ g.getNodesConnectedFrom (nodeFromTransformerRequest req)
        (some "invalidated_by_change_to"),
      (([nodeFromFile ⟨req.filePath⟩] : List Node)).any (fun t => t.id == c.id) = true)
    (hdeps : ∀ a ∈ ce.assets,
      (∀ d ∈ a.dependencies, mapGet g.nodes d.id = some (nodeFromDep d) ∧
        g.hasEdge ⟨a.id, d.id, none⟩ = true) ∧
      (∀ c ∈ g.getNodesConnectedFrom (nodeFromAsset a) none,
        (a.dependencies.map nodeFromDep).any (fun t => t.id == c.id) = true)) :
    g.resolveTransformerRequest req ce = (g, []) ∧
    g.replaceNodesConnectedTo (nodeFromTransformerRequest req)
      (ce.assets.map nodeFromAsset) (some "produces") = (g, ⟨[], []⟩) ∧
    g.replaceNodesConnectedTo (nodeFromTransformerRequest req)
      [nodeFromFile ⟨req.filePath⟩] (some "invalidated_by_change_to") = (g, ⟨[], []⟩) ∧
    ∀ a ∈ ce.assets, g.replaceNodesConnectedTo (nodeFromAsset a)
      (a.dependencies.map nodeFromDep) none = (g, ⟨[], []⟩) := by
  have hrep1 : g.replaceNodesConnectedTo (nodeFromTransformerRequest req)
      (ce.assets.map nodeFromAsset) (some "produces") = (g, ⟨[], []⟩) := by
    apply replace_noop
    · intro t ht
      rcases List.mem_map.mp ht with ⟨a, ha, rfl⟩
      exact (hassets a ha).1
    · intro t ht
      rcases List.mem_map.mp ht with ⟨a, ha, rfl⟩
      exact (hassets a ha).2
    · exact hpchild
  have hrep2 : g.replaceNodesConnectedTo (nodeFromTransformerRequest req)
      [nodeFromFile ⟨req.filePath⟩] (some "invalidated_by_change_to") = (g, ⟨[], []⟩) := by
    apply replace_noop
    · intro t ht
      rw [List.mem_singleton.mp ht]
      exact hfile.1
    · intro t ht
      rw [List.mem_singleton.mp ht]
      exact hfile.2
    · exact hfchild
  have hrep3 : ∀ a ∈ ce.assets, g.replaceNodesConnectedTo (nodeFromAsset a)
      (a.dependencies.map nodeFromDep) none = (g, ⟨[], []⟩) := by
    intro a ha
    apply replace_noop
    · intro t ht
      rcases List.mem_map.mp ht with ⟨d, hd, rfl⟩
      exact ((hdeps a ha).1 d hd).1
    · intro t ht
      rcases List.mem_map.mp ht with ⟨d, hd, rfl⟩
      exact ((hdeps a ha).1 d hd).2
    · exact (hdeps a ha).2
  have hstep : ∀ (lst : List Node) (an : Node), an ∈ ce.assets.map nodeFromAsset →
      transformStep (g, lst) an = (g, lst) := by
    intro lst an han
    rcases List.mem_map.mp han with ⟨a, ha, rfl⟩
    unfold transformStep
    dsimp only
    rw [show (match (nodeFromAsset a).value with
        | NodeValue.asset a => a.dependencies
        | _ => []) = a.dependencies from rfl]
    rw [hrep3 a ha]
    simp [getDepNodesFromNodes]
  have hfold : ∀ (l : List Node), (∀ an ∈ l, an ∈ ce.assets.map nodeFromAsset) →
      ∀ lst : List Node, l.foldl transformStep (g, lst) = (g, lst) := by
    intro l
    induction l with
    | nil => intro _ lst; rfl
    | cons an rest ih =>
      intro hsub lst
      rw [List.foldl_cons, hstep lst an (hsub an (by simp))]
      exact ih (fun x hx => hsub x (by simp [hx])) lst
  refine ⟨?_, hrep1, hrep2, hrep3⟩
  unfold AssetGraph.resolveTransformerRequest
  dsimp only
  rw [deleteFromIndices_id g _ hinc hinv, hrep1]
  rw [show ((g, (⟨[], []⟩ : GraphDiff)) : AssetGraph × GraphDiff).1 = g from rfl, hrep2]
  rw [show ((g, (⟨[], []⟩ : GraphDiff)) : AssetGraph × GraphDiff).1 = g from rfl]
  rw [hfold (ce.assets.map nodeFromAsset) (fun x hx => hx) []]
  rfl

/-- Witness for C5: a concrete first resolution followed by a second
resolution with the identical request and result returns the graph unchanged
with an empty newDepNodes list. -/
theorem resolveTransformerRequest_idempotent_witness :
    gC6.resolveTransformerRequest req0 ceC6 = (gC6, []) :=
  (resolveTransformerRequest_idempotent gC6 req0 ceC6 (by decide) (by decide) (by decide)
    (by decide) (by decide) (by decide) (by decide)).1

def opts8 : AssetGraphOpts :=
  ⟨some ["./a.js", "./b.js"], some [⟨"node"⟩, ⟨"browser"⟩], none, "/proj"⟩

def g8 : AssetGraph := (AssetGraph.empty.initializeGraph opts8).toOption.getD AssetGraph.empty

/-- Claim C8: initializeGraph throws exactly when entries are given without
targets; on success with entries it creates one is_entry Dependency node per
(entry, target) pair carrying the entry as module specifier and the target's
environment, makes those nodes the root's children, and registers each of
them in the incomplete index (exercised on a concrete 2-entry, 2-target
initialization). -/
theorem initializeGraph_spec :
    (∀ (g : AssetGraph) (opts : AssetGraphOpts),
      (∃ msg, g.initializeGraph opts = Except.error msg) ↔
        (opts.entries.isSome ∧ opts.targets = none)) ∧
    (AssetGraph.empty.initializeGraph opts8 = Except.ok g8 ∧
      (g8.nodes.filter (fun p => p.2.type == "dependency")).length = 4 ∧
      mapGet g8.nodes (depIdAt 0) = some (nodeFromDep ⟨depIdAt 0, "./a.js", "node", true⟩) ∧
      mapGet g8.nodes (depIdAt 1) = some (nodeFromDep ⟨depIdAt 1, "./a.js", "browser", true⟩) ∧
      mapGet g8.nodes (depIdAt 2) = some (nodeFromDep ⟨depIdAt 2, "./b.js", "node", true⟩) ∧
      mapGet g8.nodes (depIdAt 3) = some (nodeFromDep ⟨depIdAt 3, "./b.js", "browser", true⟩) ∧
      (g8.getNodesConnectedFrom (nodeFromRootDir "/proj") none).map (fun n => n.id)
        = [depIdAt 0, depIdAt 1, depIdAt 2, depIdAt 3] ∧
      g8.incompleteNodes.map Prod.fst = [depIdAt 0, depIdAt 1, depIdAt 2, depIdAt 3] ∧
      g8.rootNodeId = some "/proj") := by
  constructor
  · intro g opts
    constructor
    · rintro ⟨msg, hmsg⟩
      unfold AssetGraph.initializeGraph at hmsg
      dsimp only at hmsg
      rcases he : opts.entries with _ | es <;> rw [he] at hmsg
      · rcases ht : opts.transformerRequest with _ | tr <;>
          rw [ht] at hmsg <;> cases hmsg
      · rcases ht : opts.targets with _ | ts <;> rw [ht] at hmsg
        · exact ⟨rfl, rfl⟩
        · cases hmsg
    · rintro ⟨h1, h2⟩
      rcases he : opts.entries with _ | es
      · rw [he] at h1
        cases h1
      · refine ⟨"Targets are required when entries are specified", ?_⟩
        unfold AssetGraph.initializeGraph
        dsimp only
        rw [he, h2]
  · refine ⟨by decide, by decide, by decide, by decide, by decide, by decide,
      by decide, by decide, by decide⟩

/-- Witness for C8: the error case concretely. -/
theorem initializeGraph_spec_witness :
    ∃ msg, AssetGraph.empty.initializeGraph ⟨some [], none, none, "/proj"⟩
      = Except.error msg :=
  (initializeGraph_spec.1 AssetGraph.empty ⟨some [], none, none, "/proj"⟩).mpr
    ⟨by decide, by decide⟩

end Parcel
